import Mathlib

/-!
# Verification of the Mellowtel network-analysis experiment driver

A shallow embedding of the core of `run_experiment.py`: the domain utility
(`extract_domain`), the request-attribution engine
(`NetworkAnalyzer.process_new_requests` and `is_mellowtel_request`), the
iframe tracker (`update_iframe_metadata`, `save_iframe_metadata`), the
aggregation buffer and flush logic (`write_iframe_requests`), the POST
payload extractor (`save_post_payload`), and the asynchronous persistence
pipeline (`FileWriterQueue`).  Python dicts are modelled as insertion-ordered
association lists, Python sets as duplicate-free lists whose order stands for
the (arbitrary) iteration order, and side effects (log lines, written files,
queued write tasks) are returned explicitly.
-/

set_option maxRecDepth 10000

namespace Mellowtel

/-! ## String helpers (Python `in`, `str.lower`) -/

/-- Python `sub in s` on lists of characters: `sub` occurs contiguously in `l`. -/
def listContainsSub (l sub : List Char) : Bool :=
  match l with
  | [] => sub.isEmpty
  | _ :: t => sub.isPrefixOf l || listContainsSub t sub

/-- Python `sub in s` for strings. -/
def strContains (s sub : String) : Bool :=
  listContainsSub s.data sub.data

/-- ASCII lower-casing of one character (Python `str.lower` on the ASCII range,
which is all the driver ever feeds it). -/
def lowerChar (c : Char) : Char :=
  if 'A' ≤ c && c ≤ 'Z' then Char.ofNat (c.toNat + 32) else c

/-- Python `s.lower()` restricted to ASCII. -/
def lowerStr (s : String) : String :=
  ⟨s.data.map lowerChar⟩

/-! ## Domain Utility: `NetworkAnalyzer.extract_domain`

`urlparse(url).netloc.lower()` with the exception branch returning `""`.
We reproduce CPython's `urlsplit`: an optional `scheme:` prefix is stripped
when the text before the first `:` starts with an ASCII letter and consists of
scheme characters; the netloc is present only when the remainder starts with
`//` and runs to the first `/`, `?` or `#`; a netloc with unbalanced square
brackets raises `ValueError`, which `extract_domain` catches, returning `""`. -/

def isAsciiAlpha (c : Char) : Bool :=
  ('a' ≤ c && c ≤ 'z') || ('A' ≤ c && c ≤ 'Z')

def isAsciiDigit (c : Char) : Bool :=
  '0' ≤ c && c ≤ '9'

def isSchemeChar (c : Char) : Bool :=
  isAsciiAlpha c || isAsciiDigit c || c = '+' || c = '-' || c = '.'

/-- Strip a leading `scheme:` the way `urlsplit` does, returning the rest. -/
def afterScheme (url : List Char) : List Char :=
  match url.findIdx? (· = ':') with
  | none => url
  | some i =>
    if 0 < i && (url.take i).all isSchemeChar &&
        (url.headD ' ' |> isAsciiAlpha) then
      url.drop (i + 1)
    else url

/-- The netloc of the post-scheme part: present only after `//`, up to the
first `/`, `?` or `#`. -/
def netlocOf (rest : List Char) : List Char :=
  if rest.take 2 = ['/', '/'] then
    (rest.drop 2).takeWhile (fun c => !(c = '/' || c = '?' || c = '#'))
  else []

/-- `NetworkAnalyzer.extract_domain`: lower-cased netloc, `""` on failure. -/
def extract_domain (url : String) : String :=
  let netloc := netlocOf (afterScheme url.data)
  if (netloc.contains '[' && !netloc.contains ']') ||
      (netloc.contains ']' && !netloc.contains '[') then ""
  else ⟨netloc.map lowerChar⟩

example : extract_domain "https://a.example.com/" = "a.example.com" := by decide
example : extract_domain "https://Request.Mellow.Tel/api?x=1" = "request.mellow.tel" := by decide
example : extract_domain "not a url" = "" := by decide

/-! ## Python dicts as insertion-ordered association lists -/

/-- One step of Python dict construction: existing key keeps its slot but the
value is overwritten; a new key is appended. -/
def pyDictInsert (m : List (String × String)) (k v : String) :
    List (String × String) :=
  if m.any (fun p => p.1 = k) then
    m.map (fun p => if p.1 = k then (k, v) else p)
  else m ++ [(k, v)]

/-- Python `dict(pairs)`: fold the pairs left to right. -/
def pyDict (pairs : List (String × String)) : List (String × String) :=
  pairs.foldl (fun m p => pyDictInsert m p.1 p.2) []

/-- Python `d.get(k)` on a dict (association list whose keys are unique). -/
def dictGet (m : List (String × String)) (k : String) : Option String :=
  (m.find? (fun p => p.1 = k)).map (·.2)

/-! ## Data model -/

/-- The `request.mellow.tel` relay-host marker tested by `is_mellowtel_request`,
`process_new_requests` and `save_post_payload`. -/
def marker : String := "request.mellow.tel"

/-- The response part of an intercepted exchange (`request.response`). -/
structure ResponseData where
  status_code : Int
  reason : String
  headers : List (String × String)
  deriving DecidableEq, Repr

/-- An intercepted network exchange as exposed by the interception layer.
`ts` is the wall-clock second at which `extract_request_data` captures
the request (`int(datetime.utcnow().timestamp())`); `body` is `none` when the
request object carries no body (`request.body is None`). -/
structure Request where
  url : String
  method : String
  headers : List (String × String)
  response : Option ResponseData
  body : Option (List Nat)
  ts : Int
  deriving DecidableEq, Repr

/-- The dict built by `NetworkAnalyzer.extract_request_data`, after the caller
has added `visited_site`.  The two attribution fields `iframe_src` and
`iframe_domain` are stamped in only at flush time (see `stampRecord`). -/
structure StoredRecord where
  timestamp : Int
  url : String
  method : String
  request_headers : List (String × String)
  response : Option ResponseData
  visited_site : String
  deriving DecidableEq, Repr

/-- `NetworkAnalyzer.extract_request_data` followed by the
`request_data['visited_site'] = site_url` line of `process_new_requests`.
The Python try/except never fires on well-formed inputs, so the model is
total. -/
def extract_request_data (req : Request) (site : String) : StoredRecord :=
  { timestamp := req.ts
    url := req.url
    method := req.method
    request_headers := pyDict req.headers
    response := req.response
    visited_site := site }

/-- One aggregation bucket: `self.iframe_requests[iframe_src] =
{'domain': ..., 'requests': [...]}`. -/
structure Bucket where
  domain : String
  requests : List StoredRecord
  deriving DecidableEq, Repr

/-- The per-visit state of `NetworkAnalyzer` consumed and produced by the
attribution engine.  `current_visible_iframes` is a Python set: a
duplicate-free list whose order stands for the arbitrary iteration order;
`iframe_requests` is an insertion-ordered dict. -/
structure AnalyzerState where
  mellowtel_domains : List String
  current_visible_iframes : List String
  iframe_requests : List (String × Bucket)
  last_processed_request_index : Nat
  post_payload_counter : Nat
  deriving DecidableEq, Repr

/-- Lookup in the aggregation buffer (`iframe_src in self.iframe_requests` /
`self.iframe_requests[iframe_src]`). -/
def bucketLookup (m : List (String × Bucket)) (k : String) : Option Bucket :=
  (m.find? (fun p => p.1 = k)).map (·.2)

/-- The request list currently buffered for iframe `k` (`[]` when no bucket
exists yet). -/
def bucketRequests (m : List (String × Bucket)) (k : String) : List StoredRecord :=
  ((bucketLookup m k).map (·.requests)).getD []

/-- The `if iframe_url not in self.iframe_requests: ... ;
self.iframe_requests[iframe_url]['requests'].append(request_data)` idiom of
`process_new_requests`: create the bucket lazily with the iframe's domain,
then append the record. -/
def bucketAppend (m : List (String × Bucket)) (u : String) (dom : String)
    (r : StoredRecord) : List (String × Bucket) :=
  match bucketLookup m u with
  | some b =>
    m.map (fun p => if p.1 = u then (u, { b with requests := b.requests ++ [r] }) else p)
  | none => m ++ [(u, { domain := dom, requests := [r] })]

/-- Observable log lines of the attribution engine and payload extractor. -/
inductive LogEvent where
  | warnRefererNoMatch (refererDomain : String)
  | warnNoReferer
  | warnPostNoBody
  | infoPostSaved (counter : Nat)
  deriving DecidableEq, Repr

/-- `NetworkAnalyzer.is_mellowtel_request`. -/
def is_mellowtel_request (doms : List String) (request_url : String) : Bool :=
  if strContains request_url marker then true
  else
    let request_domain := extract_domain request_url
    if request_domain = "" then false
    else request_domain ∈ doms

/-! ## POST Payload Extractor: `NetworkAnalyzer.save_post_payload` -/

/-- One payload file as written by `save_post_payload`.  The on-disk name
embeds the counter, a wall-clock timestamp and a sanitized site slug; the
content is a metadata header followed by the decoded body.  The raw body
bytes are kept here; the UTF-8/Latin-1/hex rendering does not affect any
claim. -/
structure PayloadFile where
  counter : Nat
  site : String
  url : String
  content_type : String
  body : List Nat
  deriving DecidableEq, Repr

/-- Case-insensitive header lookup, modelling the interception layer's
`request.headers` mapping used by `'content-type' in request.headers`. -/
def headerGetCI (hdrs : List (String × String)) (k : String) : Option String :=
  (hdrs.find? (fun p => lowerStr p.1 = lowerStr k)).map (·.2)

/-- `NetworkAnalyzer.save_post_payload`: returns the new payload counter, the
file written (if any) and the log lines emitted. -/
def save_post_payload (req : Request) (site : String) (counter : Nat) :
    Nat × Option PayloadFile × List LogEvent :=
  if !(req.method = "POST") || !strContains req.url marker then
    (counter, none, [])
  else
    let content_type :=
      match headerGetCI req.headers "content-type" with
      | some v => lowerStr v
      | none => ""
    if !strContains content_type "text" then (counter, none, [])
    else
      match req.body with
      | none => (counter, none, [.warnPostNoBody])
      | some b =>
        let c := counter + 1
        (c, some { counter := c, site := site, url := req.url,
                   content_type := content_type, body := b },
         [.infoPostSaved c])

/-! ## Request Attribution Engine: `NetworkAnalyzer.process_new_requests` -/

/-- Python `a or b` on the two `Referer` lookups: a `None` or empty first
result falls through to the second. -/
def pyOr (a b : Option String) : Option String :=
  match a with
  | some v => if v = "" then b else some v
  | none => b

/-- The `for iframe_url in self.current_visible_iframes: ... break` loops of
`process_new_requests`: append the record to the first visible iframe whose
domain equals `target`, creating its bucket lazily; report whether a match
was found. -/
def attributeByDomain (visible : List String) (target : String)
    (m : List (String × Bucket)) (r : StoredRecord) :
    List (String × Bucket) × Bool :=
  match visible with
  | [] => (m, false)
  | u :: rest =>
    if extract_domain u = target then (bucketAppend m u (extract_domain u) r, true)
    else attributeByDomain rest target m r

/-- The no-`Referer` fallback loop: append a copy of the record to every
currently visible iframe's bucket (`request_data.copy()`), creating buckets
lazily. -/
def broadcastAppend (visible : List String) (m : List (String × Bucket))
    (r : StoredRecord) : List (String × Bucket) :=
  visible.foldl (fun m u => bucketAppend m u (extract_domain u) r) m

/-- The relevant-request branch of the `process_new_requests` loop body
(lines deciding relay-host vs domain attribution): returns the new
aggregation buffer and the warnings logged. -/
def attributeRequest (st : AnalyzerState) (request_data : StoredRecord)
    (request_url : String) : List (String × Bucket) × List LogEvent :=
  let request_domain := extract_domain request_url
  if strContains request_url marker then
    let referer := pyOr (dictGet request_data.request_headers "Referer")
                        (dictGet request_data.request_headers "referer")
    match referer with
    | some rv =>
      if rv = "" then
        (broadcastAppend st.current_visible_iframes st.iframe_requests request_data,
         [.warnNoReferer])
      else
        let referer_domain := extract_domain rv
        let ab := attributeByDomain st.current_visible_iframes
          referer_domain st.iframe_requests request_data
        if ab.2 then (ab.1, [])
        else (ab.1, [.warnRefererNoMatch referer_domain])
    | none =>
      (broadcastAppend st.current_visible_iframes st.iframe_requests request_data,
       [.warnNoReferer])
  else
    ((attributeByDomain st.current_visible_iframes request_domain
        st.iframe_requests request_data).1, [])

/-- The body of the `for i in range(...)` loop of `process_new_requests`:
save a qualifying POST payload, then classify and attribute the request. -/
def processOneRequest (site : String) (st : AnalyzerState) (req : Request) :
    AnalyzerState × List LogEvent × List PayloadFile :=
  let spp := save_post_payload req site st.post_payload_counter
  let st1 := { st with post_payload_counter := spp.1 }
  if is_mellowtel_request st1.mellowtel_domains req.url then
    let request_data := extract_request_data req site
    let ar := attributeRequest st1 request_data req.url
    ({ st1 with iframe_requests := ar.1 }, spp.2.2 ++ ar.2, spp.2.1.toList)
  else (st1, spp.2.2, spp.2.1.toList)

/-- The index range `range(self.last_processed_request_index, total_requests)`
iterated by one attribution pass. -/
def passIndices (last total : Nat) : List Nat :=
  List.range' last (total - last)

/-- `NetworkAnalyzer.process_new_requests`: examine only the requests at
index ≥ `last_processed_request_index` (early return when there are none),
process each, and finally advance the index to the total request count. -/
def processNewRequests (site : String) (requests : List Request)
    (st : AnalyzerState) : AnalyzerState × List LogEvent × List PayloadFile :=
  let total := requests.length
  if total ≤ st.last_processed_request_index then (st, [], [])
  else
    let out :=
      (passIndices st.last_processed_request_index total).foldl
        (fun acc i =>
          match requests[i]? with
          | some req =>
            let pr := processOneRequest site acc.1 req
            (pr.1, acc.2.1 ++ pr.2.1, acc.2.2 ++ pr.2.2)
          | none => acc)
        (st, [], [])
    ({ out.1 with last_processed_request_index := total }, out.2.1, out.2.2)

/-! ## Flush: `NetworkAnalyzer.write_iframe_requests`

Flushing serializes every buffered record of one bucket as a JSON line
(`json.dumps(request_data) + '\n'`), after stamping `iframe_src` and
`iframe_domain` into it, concatenates the lines and enqueues them as a
single append-mode write task. -/

/-- A buffered record with the two attribution fields stamped in at flush
time (dict key order: the six capture fields, then `iframe_src`,
`iframe_domain`). -/
structure FlushedRecord where
  timestamp : Int
  url : String
  method : String
  request_headers : List (String × String)
  response : Option ResponseData
  visited_site : String
  iframe_src : String
  iframe_domain : String
  deriving DecidableEq, Repr

/-- The `request_data['iframe_src'] = ...; request_data['iframe_domain'] = ...`
lines of `write_iframe_requests`. -/
def stampRecord (r : StoredRecord) (src dom : String) : FlushedRecord :=
  { timestamp := r.timestamp, url := r.url, method := r.method,
    request_headers := r.request_headers, response := r.response,
    visited_site := r.visited_site, iframe_src := src, iframe_domain := dom }

/-- `sep.join(parts)` (Python) / `", ".join`: the separator goes between
consecutive parts. -/
def joinSep (sep : String) : List String → String
  | [] => ""
  | [x] => x
  | x :: xs => x ++ sep ++ joinSep sep xs

/-- `''.join(parts)` (Python): plain concatenation. -/
def concatAll : List String → String
  | [] => ""
  | x :: xs => x ++ concatAll xs

/-- Decimal digits of a natural number (Python `repr`). -/
def natRepr (n : Nat) : List Char :=
  if _h : n < 10 then [Char.ofNat ('0'.toNat + n)]
  else natRepr (n / 10) ++ [Char.ofNat ('0'.toNat + n % 10)]
decreasing_by
  exact Nat.div_lt_self (by omega) (by omega)

/-- Python `repr` of an int, as serialized by `json.dumps`. -/
def intRepr (i : Int) : String :=
  if i < 0 then ⟨'-' :: natRepr i.natAbs⟩ else ⟨natRepr i.natAbs⟩

/-- Lower-case hex digit. -/
def hexDigit (n : Nat) : Char :=
  if n < 10 then Char.ofNat ('0'.toNat + n) else Char.ofNat ('a'.toNat + n - 10)

/-- `\uXXXX` escape for a 16-bit unit. -/
def hex4 (n : Nat) : List Char :=
  ['\\', 'u', hexDigit (n / 4096 % 16), hexDigit (n / 256 % 16),
   hexDigit (n / 16 % 16), hexDigit (n % 16)]

/-- `json.dumps` escape of one character (default `ensure_ascii=True`):
named escapes, `\uXXXX` for other control or non-ASCII characters (with a
surrogate pair beyond the BMP), the character itself otherwise. -/
def escChar (c : Char) : List Char :=
  if c = '"' then ['\\', '"']
  else if c = '\\' then ['\\', '\\']
  else if c = '\n' then ['\\', 'n']
  else if c = '\r' then ['\\', 'r']
  else if c = '\t' then ['\\', 't']
  else if c.toNat = 8 then ['\\', 'b']
  else if c.toNat = 12 then ['\\', 'f']
  else if c.toNat < 0x20 || 0x7e < c.toNat then
    if c.toNat < 0x10000 then hex4 c.toNat
    else
      hex4 (0xd800 + (c.toNat - 0x10000) / 0x400) ++
      hex4 (0xdc00 + (c.toNat - 0x10000) % 0x400)
  else [c]

/-- `json.dumps` of a string. -/
def jsonStr (s : String) : String :=
  ⟨'"' :: (s.data.flatMap escChar ++ ['"'])⟩

/-- `json.dumps` of a string-valued dict (default separators `, ` / `: `). -/
def jsonDict (m : List (String × String)) : String :=
  "\x7b" ++ joinSep ", "
    (m.map (fun p => jsonStr p.1 ++ ": " ++ jsonStr p.2)) ++ "\x7d"

/-- `json.dumps` of the optional response dict. -/
def jsonResponse : Option ResponseData → String
  | none => "null"
  | some r =>
    "\x7b" ++ jsonStr "status_code" ++ ": " ++ intRepr r.status_code ++ ", " ++
    jsonStr "reason" ++ ": " ++ jsonStr r.reason ++ ", " ++
    jsonStr "headers" ++ ": " ++ jsonDict r.headers ++ "\x7d"

/-- `json.dumps(request_data)` for a stamped record, keys in dict insertion
order. -/
def jsonDumpsFlushed (r : FlushedRecord) : String :=
  "\x7b" ++ joinSep ", "
    [jsonStr "timestamp" ++ ": " ++ intRepr r.timestamp,
     jsonStr "url" ++ ": " ++ jsonStr r.url,
     jsonStr "method" ++ ": " ++ jsonStr r.method,
     jsonStr "request_headers" ++ ": " ++ jsonDict r.request_headers,
     jsonStr "response" ++ ": " ++ jsonResponse r.response,
     jsonStr "visited_site" ++ ": " ++ jsonStr r.visited_site,
     jsonStr "iframe_src" ++ ": " ++ jsonStr r.iframe_src,
     jsonStr "iframe_domain" ++ ": " ++ jsonStr r.iframe_domain] ++ "\x7d"

/-- A task handed to `FileWriterQueue.enqueue_write`: target file, content,
open mode (`'a'` append — the only mode the driver uses — or `'w'`). -/
structure WriteTask where
  filepath : String
  content : String
  mode : Char
  deriving DecidableEq, Repr

/-- `NetworkAnalyzer.write_iframe_requests`: returns the new aggregation
buffer and the write tasks enqueued (one when the bucket exists and is
non-empty, none otherwise).  A missing bucket returns unchanged; an existing
bucket is deleted either way. -/
def write_iframe_requests (output_file : String)
    (m : List (String × Bucket)) (iframe_url : String) :
    List (String × Bucket) × List WriteTask :=
  match bucketLookup m iframe_url with
  | none => (m, [])
  | some b =>
    let tasks :=
      if 0 < b.requests.length then
        [{ filepath := output_file,
           content := concatAll (b.requests.map
             (fun r => jsonDumpsFlushed (stampRecord r iframe_url b.domain) ++ "\n")),
           mode := 'a' }]
      else []
    (m.filter (fun p => p.1 ≠ iframe_url), tasks)

/-! ## Async Persistence Pipeline: `FileWriterQueue`

The single worker thread drains a FIFO `queue.Queue`; each task opens the
target file in its mode, writes the content and closes it.  The file system
is modelled as a total map from path to content, a missing file being the
empty content (append mode creates the file). -/

/-- Apply one write task to the file system. -/
def applyTask (fs : String → String) (t : WriteTask) : String → String :=
  fun p =>
    if p = t.filepath then
      if t.mode = 'w' then t.content else fs p ++ t.content
    else fs p

/-- The worker loop: consume the queued tasks strictly in enqueue (FIFO)
order. -/
def runWriter (fs : String → String) (tasks : List WriteTask) : String → String :=
  tasks.foldl applyTask fs

/-! ## Iframe Tracker: `update_iframe_metadata` / `save_iframe_metadata`

Tick timestamps are `time.time() - self.monitoring_start_time`, modelled as
rationals. -/

/-- One `{src, id, dataId}` tuple returned by the DOM query
(`check_for_mellowtel_iframes`). -/
structure IframeSnapshot where
  src : String
  id : String
  dataId : String
  deriving DecidableEq, Repr

/-- One entry of `self.iframe_metadata`.  Timestamps are
`time.time() - monitoring_start_time` seconds: real-valued and only ever
compared and subtracted, so the model is parametric in a linear ordered
additive group of times. -/
structure IframeMeta (α : Type) where
  src : String
  id : String
  data_id : String
  domain : String
  first_seen : α
  last_seen : α
  deriving DecidableEq, Repr

/-- Lookup in the metadata dict. -/
def metaLookup {α : Type} (meta : List (String × IframeMeta α)) (src : String) :
    Option (IframeMeta α) :=
  (meta.find? (fun p => p.1 = src)).map (·.2)

/-- `NetworkAnalyzer.update_iframe_metadata`: a new `src` is inserted with
`first_seen = last_seen = current_time`; a known `src` only has its
`last_seen` updated. -/
def update_iframe_metadata {α : Type} (meta : List (String × IframeMeta α))
    (d : IframeSnapshot) (current_time : α) : List (String × IframeMeta α) :=
  match metaLookup meta d.src with
  | none =>
    meta ++ [(d.src,
      { src := d.src, id := d.id, data_id := d.dataId,
        domain := extract_domain d.src,
        first_seen := current_time, last_seen := current_time })]
  | some r =>
    meta.map (fun p =>
      if p.1 = d.src then (d.src, { r with last_seen := current_time }) else p)

/-- One monitoring tick: update the metadata of every iframe visible in the
snapshot at that tick's time (the loop in `_process_site_after_navigation`). -/
def applyTick {α : Type} (meta : List (String × IframeMeta α))
    (tick : α × List IframeSnapshot) : List (String × IframeMeta α) :=
  tick.2.foldl (fun m d => update_iframe_metadata m d tick.1) meta

/-- Run a sequence of monitoring ticks. -/
def runTicks {α : Type} (meta : List (String × IframeMeta α))
    (ticks : List (α × List IframeSnapshot)) : List (String × IframeMeta α) :=
  ticks.foldl applyTick meta

/-- One line of the `iframe_metadata.jsonl` file. -/
structure SavedIframeRecord (α : Type) where
  visited_site : String
  src : String
  id : String
  data_id : String
  domain : String
  first_seen : α
  last_seen : α
  duration_seconds : α
  deriving DecidableEq, Repr

/-- `NetworkAnalyzer.save_iframe_metadata`: one record per tracked iframe,
with `duration = last_seen - first_seen` computed at save time. -/
def save_iframe_metadata {α : Type} [Sub α] (site : String)
    (meta : List (String × IframeMeta α)) : List (SavedIframeRecord α) :=
  meta.map (fun p =>
    { visited_site := site, src := p.2.src, id := p.2.id,
      data_id := p.2.data_id, domain := p.2.domain,
      first_seen := p.2.first_seen, last_seen := p.2.last_seen,
      duration_seconds := p.2.last_seen - p.2.first_seen })

/-! ## Shutdown: `FileWriterQueue.shutdown`

The call's side effects in order, as an explicit trace.  `drainQueue`'s
argument is the time bound of the wait for the queue to drain
(`self.write_queue.join()` takes none); `joinWorker`'s argument is the bound
of the thread join (`self.worker_thread.join(timeout=timeout)`). -/

inductive ShutdownStep where
  | setShutdownEvent
  | drainQueue (timeout : Option ℚ)
  | putSentinel
  | joinWorker (timeout : Option ℚ)
  | logWorkerAlive
  | logWorkerTerminated
  deriving DecidableEq, Repr

/-- `FileWriterQueue.shutdown(timeout)`: the trace of effects, and whether an
exception escapes (it never does — a worker that stays alive is only
logged).  `workerTerminates` tells whether the worker thread ends within the
join timeout. -/
def shutdownRun (timeout : ℚ) (workerTerminates : Bool) :
    List ShutdownStep × Bool :=
  ([ShutdownStep.setShutdownEvent,
    ShutdownStep.drainQueue none,
    ShutdownStep.putSentinel,
    ShutdownStep.joinWorker (some timeout)] ++
   (if workerTerminates then [ShutdownStep.logWorkerTerminated]
    else [ShutdownStep.logWorkerAlive]),
   false)

/-- Recognize the drain step of a trace. -/
def isDrainStep : ShutdownStep → Bool
  | ShutdownStep.drainQueue _ => true
  | _ => false

/-! ## Heap model of broadcast and stamping (for the frame effect)

`process_new_requests` appends `request_data.copy()` in the no-`Referer`
broadcast, while `write_iframe_requests` adds the `iframe_src` /
`iframe_domain` keys to the buffered dicts *in place*.  To reason about that
mutation we model the Python heap explicitly: records live in a store keyed
by object identity, buckets hold object ids, `.copy()` allocates a fresh
object with the same value. -/

/-- A record object on the heap: the captured data plus the two attribution
keys, absent until stamped. -/
structure RecordObj where
  data : StoredRecord
  iframe_src : Option String
  iframe_domain : Option String
  deriving DecidableEq, Repr

/-- The heap-level view of the aggregation buffer: an object store, the next
fresh object id, and buckets holding `(src, domain, object ids)`. -/
structure HeapState where
  store : List (Nat × RecordObj)
  nextId : Nat
  buckets : List (String × String × List Nat)
  deriving DecidableEq, Repr

/-- Object lookup. -/
def storeGet (h : HeapState) (i : Nat) : Option RecordObj :=
  (h.store.find? (fun p => p.1 = i)).map (·.2)

/-- Allocate a fresh record object (`request_data.copy()`). -/
def allocRecord (h : HeapState) (r : StoredRecord) : HeapState × Nat :=
  let obj : RecordObj := { data := r, iframe_src := none, iframe_domain := none }
  ({ h with store := h.store ++ [(h.nextId, obj)], nextId := h.nextId + 1 },
   h.nextId)

/-- Append an object id to iframe `u`'s bucket, creating it lazily with the
iframe's domain. -/
def bucketsAppendId (bs : List (String × String × List Nat)) (u dom : String)
    (i : Nat) : List (String × String × List Nat) :=
  if bs.any (fun p => p.1 = u) then
    bs.map (fun p => if p.1 = u then (u, p.2.1, p.2.2 ++ [i]) else p)
  else bs ++ [(u, dom, [i])]

/-- The broadcast loop at heap level: for every visible iframe allocate a
fresh copy of the record and append it to that iframe's bucket. -/
def broadcastHeap (visible : List String) (h : HeapState) (r : StoredRecord) :
    HeapState :=
  visible.foldl
    (fun h u =>
      let al := allocRecord h r
      { al.1 with buckets := bucketsAppendId al.1.buckets u (extract_domain u) al.2 })
    h

/-- The object ids buffered for iframe `v`. -/
def bucketIds (h : HeapState) (v : String) : List Nat :=
  ((h.buckets.find? (fun p => p.1 = v)).map (fun p => p.2.2)).getD []

/-- The record objects buffered for iframe `v` (what a later flush of `v`
would serialize). -/
def bucketObjs (h : HeapState) (v : String) : List (Option RecordObj) :=
  (bucketIds h v).map (storeGet h)

/-- In-place assignment of the attribution keys to the objects in `ids`. -/
def stampStore (store : List (Nat × RecordObj)) (ids : List Nat)
    (u dom : String) : List (Nat × RecordObj) :=
  store.map (fun p =>
    if p.1 ∈ ids then
      (p.1, { p.2 with iframe_src := some u, iframe_domain := some dom })
    else p)

/-- The in-place stamping loop of `write_iframe_requests` at heap level:
every object in bucket `u` gets `iframe_src` / `iframe_domain` assigned. -/
def stampHeap (h : HeapState) (u : String) : HeapState :=
  match h.buckets.find? (fun p => p.1 = u) with
  | none => h
  | some bucket =>
    { h with store := stampStore h.store bucket.2.2 u bucket.2.1 }

/-- Well-formedness of the heap: bucket ids are below `nextId` and no two
distinct buckets share an object id. -/
def HeapWF (h : HeapState) : Prop :=
  (∀ b ∈ h.buckets, ∀ i ∈ b.2.2, i < h.nextId) ∧
  (h.buckets.map Prod.fst).Nodup ∧
  h.buckets.Pairwise (fun b1 b2 => ∀ i, i ∈ b1.2.2 → i ∉ b2.2.2)

/-! ## Support lemmas: the aggregation-buffer dictionary -/

lemma bucketLookup_nil (v : String) : bucketLookup [] v = none := rfl

lemma bucketLookup_cons (k : String) (b : Bucket) (m : List (String × Bucket))
    (v : String) :
    bucketLookup ((k, b) :: m) v = if k = v then some b else bucketLookup m v := by
  by_cases h : k = v <;> simp [bucketLookup, List.find?, h]

lemma bucketLookup_append (m m' : List (String × Bucket)) (v : String) :
    bucketLookup (m ++ m') v =
      match bucketLookup m v with
      | some b => some b
      | none => bucketLookup m' v := by
  induction m with
  | nil => simp [bucketLookup]
  | cons p t ih =>
    rcases p with ⟨k, b⟩
    by_cases h : k = v <;> simp [bucketLookup_cons, h, ih]

lemma bucketLookup_mapConst_other (m : List (String × Bucket)) (u : String)
    (b' : Bucket) (v : String) (h : v ≠ u) :
    bucketLookup (m.map (fun p => if p.1 = u then (u, b') else p)) v =
      bucketLookup m v := by
  induction m with
  | nil => rfl
  | cons p t ih =>
    rcases p with ⟨k, b⟩
    by_cases hk : k = u
    · have : ¬ (u = v) := fun hv => h hv.symm
      simp [hk, bucketLookup_cons, this, ih]
    · by_cases hv : k = v
      · subst hv
        simp [bucketLookup_cons, h, hk]
      · simp [hk, bucketLookup_cons, hv, ih]

lemma bucketLookup_mapConst_self (m : List (String × Bucket)) (u : String)
    (b' : Bucket) (h : (bucketLookup m u).isSome) :
    bucketLookup (m.map (fun p => if p.1 = u then (u, b') else p)) u =
      some b' := by
  induction m with
  | nil => simp [bucketLookup] at h
  | cons p t ih =>
    rcases p with ⟨k, b⟩
    by_cases hk : k = u
    · simp [hk, bucketLookup_cons]
    · rw [bucketLookup_cons] at h
      simp only [hk, if_false] at h
      simp [hk, bucketLookup_cons, ih h]

lemma bucketAppend_lookup_self (m : List (String × Bucket)) (u dom : String)
    (r : StoredRecord) :
    bucketLookup (bucketAppend m u dom r) u =
      some (match bucketLookup m u with
            | some b => { b with requests := b.requests ++ [r] }
            | none => { domain := dom, requests := [r] }) := by
  unfold bucketAppend
  cases h : bucketLookup m u with
  | none =>
    rw [bucketLookup_append]
    simp [h, bucketLookup_cons]
  | some b =>
    rw [bucketLookup_mapConst_self m u _ (by simp [h])]

lemma bucketAppend_lookup_other (m : List (String × Bucket)) (u dom : String)
    (r : StoredRecord) (v : String) (h : v ≠ u) :
    bucketLookup (bucketAppend m u dom r) v = bucketLookup m v := by
  unfold bucketAppend
  cases hu : bucketLookup m u with
  | none =>
    rw [bucketLookup_append]
    have : ¬ (u = v) := fun hv => h hv.symm
    cases hv : bucketLookup m v <;> simp [bucketLookup_cons, bucketLookup_nil, this]
  | some b => exact bucketLookup_mapConst_other m u _ v h

lemma bucketRequests_bucketAppend_self (m : List (String × Bucket))
    (u dom : String) (r : StoredRecord) :
    bucketRequests (bucketAppend m u dom r) u = bucketRequests m u ++ [r] := by
  unfold bucketRequests
  rw [bucketAppend_lookup_self]
  cases h : bucketLookup m u <;> simp [h]

lemma bucketRequests_bucketAppend_other (m : List (String × Bucket))
    (u dom : String) (r : StoredRecord) (v : String) (h : v ≠ u) :
    bucketRequests (bucketAppend m u dom r) v = bucketRequests m v := by
  unfold bucketRequests
  rw [bucketAppend_lookup_other m u dom r v h]

/-! ## Support lemmas: the attribution loops -/

lemma attributeByDomain_no_match (visible : List String) (target : String)
    (m : List (String × Bucket)) (r : StoredRecord)
    (h : ∀ u ∈ visible, extract_domain u ≠ target) :
    attributeByDomain visible target m r = (m, false) := by
  induction visible with
  | nil => rfl
  | cons u rest ih =>
    have hu : extract_domain u ≠ target := h u (by simp)
    simp only [attributeByDomain, hu, if_false]
    exact ih (fun w hw => h w (by simp [hw]))

lemma attributeByDomain_unique_match (visible : List String) (target : String)
    (m : List (String × Bucket)) (r : StoredRecord) (u : String)
    (hu : u ∈ visible) (hmatch : extract_domain u = target)
    (huniq : ∀ w ∈ visible, extract_domain w = target → w = u) :
    attributeByDomain visible target m r =
      (bucketAppend m u (extract_domain u) r, true) := by
  induction visible with
  | nil => cases hu
  | cons v rest ih =>
    by_cases hv : extract_domain v = target
    · have : v = u := huniq v (by simp) hv
      subst this
      simp [attributeByDomain, hv, hmatch]
    · have hur : u ∈ rest := by
        cases List.mem_cons.mp hu with
        | inl h => exact absurd (h ▸ hmatch) hv
        | inr h => exact h
      simp only [attributeByDomain, hv, if_false]
      exact ih hur (fun w hw => huniq w (by simp [hw]))

lemma broadcastAppend_requests (visible : List String)
    (m : List (String × Bucket)) (r : StoredRecord) (hnd : visible.Nodup)
    (v : String) :
    bucketRequests (broadcastAppend visible m r) v =
      if v ∈ visible then bucketRequests m v ++ [r]
      else bucketRequests m v := by
  induction visible generalizing m with
  | nil => simp [broadcastAppend]
  | cons u rest ih =>
    have hnd' : rest.Nodup := (List.nodup_cons.mp hnd).2
    have hu : u ∉ rest := (List.nodup_cons.mp hnd).1
    have hbody : broadcastAppend (u :: rest) m r =
        broadcastAppend rest (bucketAppend m u (extract_domain u) r) r := rfl
    rw [hbody, ih _ hnd']
    by_cases hv : v = u
    · subst hv
      simp [hu, bucketRequests_bucketAppend_self]
    · have : bucketRequests (bucketAppend m u (extract_domain u) r) v =
          bucketRequests m v := bucketRequests_bucketAppend_other m u _ r v hv
      by_cases hvr : v ∈ rest <;> simp [hvr, hv, this]

lemma broadcastAppend_lookup_other (visible : List String)
    (m : List (String × Bucket)) (r : StoredRecord) (v : String)
    (hv : v ∉ visible) :
    bucketLookup (broadcastAppend visible m r) v = bucketLookup m v := by
  induction visible generalizing m with
  | nil => rfl
  | cons u rest ih =>
    have h1 : v ≠ u := fun h => hv (by simp [h])
    have h2 : v ∉ rest := fun h => hv (by simp [h])
    have hbody : broadcastAppend (u :: rest) m r =
        broadcastAppend rest (bucketAppend m u (extract_domain u) r) r := rfl
    rw [hbody, ih _ h2, bucketAppend_lookup_other m u _ r v h1]

/-- Unfolding of one engine step on a relay-host request with a truthy
`Referer`. -/
lemma processOneRequest_relay_referer (site : String) (st : AnalyzerState)
    (req : Request) (rv : String)
    (hmark : strContains req.url marker = true)
    (href : pyOr (dictGet (pyDict req.headers) "Referer")
                 (dictGet (pyDict req.headers) "referer") = some rv)
    (hrv : rv ≠ "") :
    processOneRequest site st req =
      (let spp := save_post_payload req site st.post_payload_counter
       let ab := attributeByDomain st.current_visible_iframes
         (extract_domain rv) st.iframe_requests (extract_request_data req site)
       ({ st with post_payload_counter := spp.1, iframe_requests := ab.1 },
        spp.2.2 ++ (if ab.2 then []
                    else [LogEvent.warnRefererNoMatch (extract_domain rv)]),
        spp.2.1.toList)) := by
  simp only [processOneRequest, attributeRequest, is_mellowtel_request, hmark,
    extract_request_data, href, hrv, if_true, if_false]
  simp [href, hrv]
  constructor
  · split <;> rfl
  · split <;> rfl

/-- Unfolding of one engine step on a relay-host request with no usable
`Referer`. -/
lemma processOneRequest_relay_noreferer (site : String) (st : AnalyzerState)
    (req : Request)
    (hmark : strContains req.url marker = true)
    (href : pyOr (dictGet (pyDict req.headers) "Referer")
                 (dictGet (pyDict req.headers) "referer") = none) :
    processOneRequest site st req =
      (let spp := save_post_payload req site st.post_payload_counter
       let m := broadcastAppend st.current_visible_iframes
         st.iframe_requests (extract_request_data req site)
       ({ st with post_payload_counter := spp.1, iframe_requests := m },
        spp.2.2 ++ [LogEvent.warnNoReferer],
        spp.2.1.toList)) := by
  simp [processOneRequest, attributeRequest, is_mellowtel_request, hmark,
    extract_request_data, href]

/-! ## Claim theorems -/

/-- **C2**: for a relay-host request carrying a truthy `Referer` header
(`Referer`/`referer` lookup), if the referer's domain equals the domain of
exactly one currently visible iframe then the attribution step appends the
request record to exactly that iframe's bucket and changes no other bucket;
if the referer's domain equals no visible iframe's domain, the no-match
warning is logged and the aggregation buffer is left unchanged. -/
theorem C2_relay_referer_single_bucket (site : String) (st : AnalyzerState)
    (req : Request) (rv : String)
    (hmark : strContains req.url marker = true)
    (href : pyOr (dictGet (pyDict req.headers) "Referer")
                 (dictGet (pyDict req.headers) "referer") = some rv)
    (hrv : rv ≠ "") :
    (∀ u ∈ st.current_visible_iframes, extract_domain u = extract_domain rv →
      (∀ w ∈ st.current_visible_iframes,
        extract_domain w = extract_domain rv → w = u) →
      bucketRequests (processOneRequest site st req).1.iframe_requests u =
        bucketRequests st.iframe_requests u ++ [extract_request_data req site] ∧
      ∀ v, v ≠ u →
        bucketLookup (processOneRequest site st req).1.iframe_requests v =
          bucketLookup st.iframe_requests v) ∧
    ((∀ w ∈ st.current_visible_iframes,
        extract_domain w ≠ extract_domain rv) →
      (processOneRequest site st req).1.iframe_requests = st.iframe_requests ∧
      LogEvent.warnRefererNoMatch (extract_domain rv) ∈
        (processOneRequest site st req).2.1) := by
  rw [processOneRequest_relay_referer site st req rv hmark href hrv]
  constructor
  · intro u hu hud huniq
    rw [attributeByDomain_unique_match st.current_visible_iframes
      (extract_domain rv) st.iframe_requests (extract_request_data req site)
      u hu hud huniq]
    constructor
    · exact bucketRequests_bucketAppend_self st.iframe_requests u _ _
    · intro v hv
      exact bucketAppend_lookup_other st.iframe_requests u _ _ v hv
  · intro hnone
    rw [attributeByDomain_no_match st.current_visible_iframes
      (extract_domain rv) st.iframe_requests (extract_request_data req site)
      hnone]
    simp

/-- Scenario-B fixture: two visible iframes on distinct domains. -/
def c2state : AnalyzerState :=
  { mellowtel_domains := ["a.example.com", "b.example.com"]
    current_visible_iframes := ["https://a.example.com/iframe",
                                "https://b.example.com/iframe"]
    iframe_requests := []
    last_processed_request_index := 0
    post_payload_counter := 0 }

/-- Scenario-B fixture: relay-host request with `Referer: https://a.example.com/`. -/
def c2req : Request :=
  { url := "https://request.mellow.tel/api", method := "GET"
    headers := [("Referer", "https://a.example.com/")]
    response := none, body := none, ts := 5 }

theorem C2_relay_referer_single_bucket_witness :
    bucketRequests (processOneRequest "https://news.test/" c2state c2req).1.iframe_requests
      "https://a.example.com/iframe" =
      [extract_request_data c2req "https://news.test/"] ∧
    bucketLookup (processOneRequest "https://news.test/" c2state c2req).1.iframe_requests
      "https://b.example.com/iframe" = none := by
  have h := (C2_relay_referer_single_bucket "https://news.test/" c2state c2req
    "https://a.example.com/" (by decide) (by decide) (by decide)).1
    "https://a.example.com/iframe" (by decide) (by decide) (by decide)
  constructor
  · rw [h.1]; decide
  · rw [h.2 "https://b.example.com/iframe" (by decide)]; decide

/-- **C3**: for a relay-host request with neither a `Referer` nor a `referer`
header, the attribution step appends the request record to the bucket of
every currently visible iframe (created lazily), leaves the bucket of every
non-visible iframe untouched, and logs the no-referer warning. -/
theorem C3_relay_noreferer_broadcast (site : String) (st : AnalyzerState)
    (req : Request)
    (hmark : strContains req.url marker = true)
    (hnd : st.current_visible_iframes.Nodup)
    (h1 : dictGet (pyDict req.headers) "Referer" = none)
    (h2 : dictGet (pyDict req.headers) "referer" = none) :
    (∀ u ∈ st.current_visible_iframes,
      bucketRequests (processOneRequest site st req).1.iframe_requests u =
        bucketRequests st.iframe_requests u ++ [extract_request_data req site]) ∧
    (∀ v, v ∉ st.current_visible_iframes →
      bucketLookup (processOneRequest site st req).1.iframe_requests v =
        bucketLookup st.iframe_requests v) ∧
    LogEvent.warnNoReferer ∈ (processOneRequest site st req).2.1 := by
  have href : pyOr (dictGet (pyDict req.headers) "Referer")
      (dictGet (pyDict req.headers) "referer") = none := by
    rw [h1, h2]; rfl
  rw [processOneRequest_relay_noreferer site st req hmark href]
  refine ⟨?_, ?_, ?_⟩
  · intro u hu
    rw [broadcastAppend_requests st.current_visible_iframes st.iframe_requests
      (extract_request_data req site) hnd u]
    simp [hu]
  · intro v hv
    exact broadcastAppend_lookup_other st.current_visible_iframes
      st.iframe_requests (extract_request_data req site) v hv
  · simp

/-- Scenario-C fixture: same two iframes as scenario B. -/
def c3state : AnalyzerState :=
  { mellowtel_domains := ["a.example.com", "b.example.com"]
    current_visible_iframes := ["https://a.example.com/iframe",
                                "https://b.example.com/iframe"]
    iframe_requests := []
    last_processed_request_index := 0
    post_payload_counter := 0 }

/-- Scenario-C fixture: relay-host request with no `Referer` header at all. -/
def c3req : Request :=
  { url := "https://request.mellow.tel/api", method := "GET"
    headers := [("accept", "*/*")]
    response := none, body := none, ts := 6 }

theorem C3_relay_noreferer_broadcast_witness :
    bucketRequests (processOneRequest "https://news.test/" c3state c3req).1.iframe_requests
      "https://a.example.com/iframe" =
      [extract_request_data c3req "https://news.test/"] ∧
    bucketRequests (processOneRequest "https://news.test/" c3state c3req).1.iframe_requests
      "https://b.example.com/iframe" =
      [extract_request_data c3req "https://news.test/"] ∧
    LogEvent.warnNoReferer ∈ (processOneRequest "https://news.test/" c3state c3req).2.1 := by
  have h := C3_relay_noreferer_broadcast "https://news.test/" c3state c3req
    (by decide) (by decide) (by decide) (by decide)
  refine ⟨?_, ?_, h.2.2⟩
  · rw [h.1 "https://a.example.com/iframe" (by decide)]; decide
  · rw [h.1 "https://b.example.com/iframe" (by decide)]; decide

/-- **C4**: provided the tracked-domain set never contains the empty domain
(the tracker only adds non-empty domains), a request is classified relevant
iff its URL contains the relay-host marker or its extracted domain is a
tracked domain; an irrelevant request leaves the aggregation buffer
unchanged (no bucket created or modified, no record stored). -/
theorem C4_relevance_filter (doms : List String) (url : String)
    (hd : "" ∉ doms) :
    (is_mellowtel_request doms url = true ↔
      (strContains url marker = true ∨ extract_domain url ∈ doms)) ∧
    ∀ site (st : AnalyzerState) (req : Request),
      is_mellowtel_request st.mellowtel_domains req.url = false →
      (processOneRequest site st req).1.iframe_requests =
        st.iframe_requests := by
  constructor
  · unfold is_mellowtel_request
    by_cases hm : strContains url marker
    · simp [hm]
    · simp only [hm, Bool.false_eq_true, if_false, false_or]
      by_cases he : extract_domain url = ""
      · simp only [he, if_true]
        constructor
        · intro h; cases h
        · intro hmem; exact absurd (he ▸ hmem) hd
      · simp [he]
  · intro site st req hirr
    simp [processOneRequest, hirr]

/-- Irrelevance fixture: one tracked domain, a request to an untracked host. -/
def c4state : AnalyzerState :=
  { mellowtel_domains := ["a.example.com"]
    current_visible_iframes := ["https://a.example.com/iframe"]
    iframe_requests := []
    last_processed_request_index := 0
    post_payload_counter := 0 }

/-- Irrelevance fixture: request to an untracked third-party host. -/
def c4req : Request :=
  { url := "https://cdn.other.net/lib.js", method := "GET"
    headers := [], response := none, body := none, ts := 7 }

theorem C4_relevance_filter_witness :
    (is_mellowtel_request ["a.example.com"] "https://cdn.other.net/lib.js" = true ↔
      (strContains "https://cdn.other.net/lib.js" marker = true ∨
        extract_domain "https://cdn.other.net/lib.js" ∈ ["a.example.com"])) ∧
    (processOneRequest "https://news.test/" c4state c4req).1.iframe_requests =
      c4state.iframe_requests := by
  have h := C4_relevance_filter ["a.example.com"] "https://cdn.other.net/lib.js"
    (by decide)
  exact ⟨h.1, h.2 "https://news.test/" c4state c4req (by decide)⟩

lemma mem_passIndices {i a b : Nat} : i ∈ passIndices a b ↔ a ≤ i ∧ i < b := by
  unfold passIndices
  rw [List.mem_range'_1]
  omega

/-- After one pass starting below the total, the processed index equals the
total request count. -/
lemma processNewRequests_last (site : String) (reqs : List Request)
    (st : AnalyzerState) (h : st.last_processed_request_index ≤ reqs.length) :
    (processNewRequests site reqs st).1.last_processed_request_index =
      reqs.length := by
  unfold processNewRequests
  by_cases hc : reqs.length ≤ st.last_processed_request_index
  · have : st.last_processed_request_index = reqs.length := le_antisymm h hc
    simp [hc, this]
  · simp [hc]

/-- **C1**: within one visit the intercepted-request list only grows, so for
two successive attribution passes the processed index is non-decreasing,
equals the total request count after each completed pass, and the index
ranges the two passes examine are duplicate-free and disjoint — no request
index is relevance-classified or attributed twice. -/
theorem C1_index_monotone_no_reprocessing (site : String)
    (reqs1 reqs2 : List Request) (st : AnalyzerState)
    (h0 : st.last_processed_request_index ≤ reqs1.length)
    (h12 : reqs1.length ≤ reqs2.length) :
    st.last_processed_request_index ≤
      (processNewRequests site reqs1 st).1.last_processed_request_index ∧
    (processNewRequests site reqs1 st).1.last_processed_request_index =
      reqs1.length ∧
    (processNewRequests site reqs1 st).1.last_processed_request_index ≤
      (processNewRequests site reqs2
        (processNewRequests site reqs1 st).1).1.last_processed_request_index ∧
    (processNewRequests site reqs2
        (processNewRequests site reqs1 st).1).1.last_processed_request_index =
      reqs2.length ∧
    (passIndices st.last_processed_request_index reqs1.length).Nodup ∧
    ∀ i ∈ passIndices st.last_processed_request_index reqs1.length,
      i ∉ passIndices
        (processNewRequests site reqs1 st).1.last_processed_request_index
        reqs2.length := by
  have hl1 := processNewRequests_last site reqs1 st h0
  have hl2 := processNewRequests_last site reqs2
    (processNewRequests site reqs1 st).1 (by rw [hl1]; exact h12)
  refine ⟨by rw [hl1]; exact h0, hl1, by rw [hl1, hl2]; exact h12, hl2, ?_, ?_⟩
  · exact List.nodup_range' ..
  · intro i hi hi2
    rw [mem_passIndices] at hi
    rw [hl1, mem_passIndices] at hi2
    omega

/-- Pass fixture: a plain untracked request. -/
def c1req : Request :=
  { url := "https://x.test/", method := "GET", headers := []
    response := none, body := none, ts := 1 }

/-- Pass fixture: fresh per-visit state. -/
def c1state : AnalyzerState :=
  { mellowtel_domains := [], current_visible_iframes := []
    iframe_requests := [], last_processed_request_index := 0
    post_payload_counter := 0 }

theorem C1_index_monotone_no_reprocessing_witness :
    (processNewRequests "https://news.test/" [c1req]
      c1state).1.last_processed_request_index = 1 ∧
    (processNewRequests "https://news.test/" [c1req, c1req]
      (processNewRequests "https://news.test/" [c1req]
        c1state).1).1.last_processed_request_index = 2 ∧
    0 ∉ passIndices
      (processNewRequests "https://news.test/" [c1req]
        c1state).1.last_processed_request_index [c1req, c1req].length := by
  have h := C1_index_monotone_no_reprocessing "https://news.test/" [c1req]
    [c1req, c1req] c1state (by decide) (by decide)
  exact ⟨h.2.1, h.2.2.2.1, h.2.2.2.2.2 0 (by decide)⟩

/-- **C6**: the persistence worker consumes write tasks strictly in enqueue
(FIFO) order, and every task is an append, so after draining a queue the
content of any file equals its prior content followed by the contents of the
tasks that target it, concatenated in enqueue order — on-disk append order
equals enqueue (flush) order, also when several tasks target one file. -/
theorem C6_fifo_append_order (fs : String → String) (tasks : List WriteTask)
    (f : String) (hmode : ∀ t ∈ tasks, t.mode = 'a') :
    runWriter fs tasks f =
      fs f ++ concatAll ((tasks.filter (fun t => t.filepath = f)).map
        (fun t => t.content)) := by
  induction tasks generalizing fs with
  | nil => simp [runWriter, concatAll]
  | cons t rest ih =>
    have hta : t.mode = 'a' := hmode t (by simp)
    have hrest : ∀ t ∈ rest, t.mode = 'a' := fun x hx => hmode x (by simp [hx])
    have hna : ¬ ('a' = 'w') := by decide
    have hstep : runWriter fs (t :: rest) f = runWriter (applyTask fs t) rest f := rfl
    rw [hstep, ih (applyTask fs t) hrest]
    by_cases hf : t.filepath = f
    · have : applyTask fs t f = fs f ++ t.content := by
        simp [applyTask, hf, hta, hna]
      rw [this]
      simp [List.filter_cons, hf, concatAll, String.append_assoc]
    · have : applyTask fs t f = fs f := by
        have : ¬ (f = t.filepath) := fun h => hf h.symm
        simp [applyTask, this]
      rw [this]
      simp [List.filter_cons, hf]

/-- Two distinguishable tasks targeting the same file. -/
def c6t1 : WriteTask := { filepath := "out/network_logs.jsonl", content := "first\n", mode := 'a' }

/-- Second task, enqueued after `c6t1`. -/
def c6t2 : WriteTask := { filepath := "out/network_logs.jsonl", content := "second\n", mode := 'a' }

theorem C6_fifo_append_order_witness :
    runWriter (fun _ => "") [c6t1, c6t2] "out/network_logs.jsonl" =
      "first\nsecond\n" := by
  rw [C6_fifo_append_order (fun _ => "") [c6t1, c6t2] "out/network_logs.jsonl"
    (by decide)]
  decide

/-- Tick times all at least `bound` and non-decreasing. -/
def timesOK {α : Type} [LE α] (bound : α) :
    List (α × List IframeSnapshot) → Prop
  | [] => True
  | tk :: rest => bound ≤ tk.1 ∧ timesOK tk.1 rest

lemma metaLookup_mem {α : Type} (m : List (String × IframeMeta α)) (k : String)
    (r : IframeMeta α) (h : metaLookup m k = some r) : (k, r) ∈ m := by
  unfold metaLookup at h
  cases hf : m.find? (fun p => p.1 = k) with
  | none => rw [hf] at h; cases h
  | some p =>
    rw [hf] at h
    have hp := List.mem_of_find?_eq_some hf
    have hpk : p.1 = k := by
      have := List.find?_some hf
      exact of_decide_eq_true this
    have hpr : p.2 = r := by simpa using h
    have : (k, r) = p := by
      cases p
      simp_all
    rw [this]
    exact hp

lemma update_iframe_metadata_inv {α : Type} [LinearOrder α]
    (meta : List (String × IframeMeta α))
    (d : IframeSnapshot) (t bound : α)
    (hinv : ∀ p ∈ meta, p.2.first_seen ≤ p.2.last_seen ∧ p.2.last_seen ≤ bound)
    (hbt : bound ≤ t) :
    ∀ p ∈ update_iframe_metadata meta d t,
      p.2.first_seen ≤ p.2.last_seen ∧ p.2.last_seen ≤ t := by
  intro p hp
  unfold update_iframe_metadata at hp
  cases hm : metaLookup meta d.src with
  | none =>
    rw [hm] at hp
    rcases List.mem_append.mp hp with h | h
    · have := hinv p h
      exact ⟨this.1, le_trans this.2 hbt⟩
    · simp only [List.mem_singleton] at h
      subst h
      exact ⟨le_refl t, le_refl t⟩
  | some r =>
    rw [hm] at hp
    rcases List.mem_map.mp hp with ⟨q, hq, hqe⟩
    have hr := hinv (d.src, r) (metaLookup_mem meta d.src r hm)
    by_cases hk : q.1 = d.src
    · rw [if_pos hk] at hqe
      subst hqe
      exact ⟨le_trans hr.1 (le_trans hr.2 hbt), le_refl t⟩
    · rw [if_neg hk] at hqe
      subst hqe
      have := hinv q hq
      exact ⟨this.1, le_trans this.2 hbt⟩

lemma applyTick_inv {α : Type} [LinearOrder α]
    (meta : List (String × IframeMeta α)) (t bound : α)
    (ds : List IframeSnapshot)
    (hinv : ∀ p ∈ meta, p.2.first_seen ≤ p.2.last_seen ∧ p.2.last_seen ≤ bound)
    (hbt : bound ≤ t) :
    ∀ p ∈ applyTick meta (t, ds),
      p.2.first_seen ≤ p.2.last_seen ∧ p.2.last_seen ≤ t := by
  induction ds generalizing meta bound with
  | nil =>
    intro p hp
    have := hinv p hp
    exact ⟨this.1, le_trans this.2 hbt⟩
  | cons d rest ih =>
    have hstep : applyTick meta (t, d :: rest) =
        applyTick (update_iframe_metadata meta d t) (t, rest) := rfl
    rw [hstep]
    exact ih (update_iframe_metadata meta d t) t
      (update_iframe_metadata_inv meta d t bound hinv hbt) (le_refl t)

lemma runTicks_inv {α : Type} [LinearOrder α]
    (ticks : List (α × List IframeSnapshot))
    (meta : List (String × IframeMeta α)) (bound : α)
    (hinv : ∀ p ∈ meta, p.2.first_seen ≤ p.2.last_seen ∧ p.2.last_seen ≤ bound)
    (hok : timesOK bound ticks) :
    ∀ p ∈ runTicks meta ticks, p.2.first_seen ≤ p.2.last_seen := by
  induction ticks generalizing meta bound with
  | nil =>
    intro p hp
    exact (hinv p hp).1
  | cons tk rest ih =>
    have hstep : runTicks meta (tk :: rest) = runTicks (applyTick meta tk) rest := rfl
    rw [hstep]
    exact ih (applyTick meta tk) tk.1
      (by
        rcases tk with ⟨t, ds⟩
        exact applyTick_inv meta t bound ds hinv hok.1)
      hok.2

lemma timesOK_of_chain {α : Type} [LE α] (t : α)
    (ticks : List (α × List IframeSnapshot))
    (h : List.Chain (· ≤ ·) t (ticks.map Prod.fst)) : timesOK t ticks := by
  induction ticks generalizing t with
  | nil => trivial
  | cons tk rest ih =>
    cases h with
    | cons hle hrest => exact ⟨hle, ih tk.1 hrest⟩

/-- **C7**: when the per-tick timestamps fed to the iframe tracker are
non-decreasing, every metadata record satisfies `first_seen ≤ last_seen`
after every prefix of tracker updates of a visit, and every record written by
the metadata save has a non-negative `duration_seconds`. -/
theorem C7_first_seen_le_last_seen {α : Type} [LinearOrderedAddCommGroup α]
    (site : String)
    (ticks : List (α × List IframeSnapshot))
    (hmono : List.Chain' (· ≤ ·) (ticks.map Prod.fst)) :
    (∀ n, ∀ p ∈ runTicks [] (ticks.take n),
      p.2.first_seen ≤ p.2.last_seen) ∧
    (∀ r ∈ save_iframe_metadata site (runTicks [] ticks),
      0 ≤ r.duration_seconds) := by
  have hpref : ∀ n, ∀ p ∈ runTicks [] (ticks.take n),
      p.2.first_seen ≤ p.2.last_seen := by
    intro n
    have hsub : (ticks.take n).map Prod.fst = (ticks.map Prod.fst).take n :=
      List.map_take ..
    have hchain : List.Chain' (· ≤ ·) ((ticks.take n).map Prod.fst) := by
      rw [hsub]
      exact hmono.take n
    cases htk : ticks.take n with
    | nil => simp [runTicks]
    | cons tk rest =>
      rw [htk, List.map_cons] at hchain
      have hc : List.Chain (· ≤ ·) tk.1 (rest.map Prod.fst) := hchain
      have hok : timesOK tk.1 (tk :: rest) :=
        ⟨le_refl _, timesOK_of_chain tk.1 rest hc⟩
      exact runTicks_inv (tk :: rest) [] tk.1 (by simp) hok
  refine ⟨hpref, ?_⟩
  intro r hr
  rcases List.mem_map.mp hr with ⟨p, hp, hpe⟩
  have hfl : p.2.first_seen ≤ p.2.last_seen := by
    have := hpref ticks.length
    rw [List.take_length] at this
    exact this p hp
  subst hpe
  simpa using sub_nonneg.mpr hfl

/-- Scenario-E fixture: one iframe visible at relative times 2 and 4. -/
def c7snap : IframeSnapshot :=
  { src := "https://a.example.com/iframe", id := "mllwtl-1", dataId := "" }

/-- Scenario-E fixture: the two monitoring ticks, at integral times. -/
def c7ticks : List (ℤ × List IframeSnapshot) :=
  [(2, [c7snap]), (4, [c7snap])]

/-- Scenario-E expected saved record. -/
def c7rec : SavedIframeRecord ℤ :=
  { visited_site := "https://news.test/", src := "https://a.example.com/iframe"
    id := "mllwtl-1", data_id := "", domain := "a.example.com"
    first_seen := 2, last_seen := 4, duration_seconds := 2 }

theorem C7_first_seen_le_last_seen_witness :
    c7rec ∈ save_iframe_metadata "https://news.test/" (runTicks [] c7ticks) ∧
    0 ≤ c7rec.duration_seconds := by
  have hchain : List.Chain' (· ≤ ·) (c7ticks.map Prod.fst) :=
    List.Chain.cons (by decide) List.Chain.nil
  refine ⟨by decide, ?_⟩
  exact (C7_first_seen_le_last_seen "https://news.test/" c7ticks hchain).2
    c7rec (by decide)

/-- Scenario-D fixture: a relay-host POST with textual content type and a
present but empty (0-byte) body. -/
def c8req : Request :=
  { url := "https://request.mellow.tel/api", method := "POST"
    headers := [("content-type", "text/plain")]
    response := none, body := some [], ts := 8 }

/-- **C8 counterexample**: the claim says a relay-host textual POST with a
0-byte body is skipped (no payload file, a warning, counter untouched).  The
code only skips when the body is absent (`request.body is None`); a present
0-byte body passes the `body is None` test, so the counter is incremented, a
payload file is written and no warning is logged. -/
theorem C8_zero_byte_body_counterexample :
    (save_post_payload c8req "https://news.test/" 0).1 = 1 ∧
    (save_post_payload c8req "https://news.test/" 0).2.1.isSome = true ∧
    LogEvent.warnPostNoBody ∉ (save_post_payload c8req "https://news.test/" 0).2.2 := by
  decide

/-- **C8 amended**: for a POST request to the relay host whose content-type
contains `text` and whose body is *absent*, the payload extractor writes no
file, logs the no-body warning, and leaves the per-session counter
unchanged. -/
theorem C8_absent_body_skipped (req : Request) (site : String) (counter : Nat)
    (ct : String)
    (h1 : req.method = "POST")
    (h2 : strContains req.url marker = true)
    (hct : headerGetCI req.headers "content-type" = some ct)
    (h3 : strContains (lowerStr ct) "text" = true)
    (h4 : req.body = none) :
    save_post_payload req site counter =
      (counter, none, [LogEvent.warnPostNoBody]) := by
  unfold save_post_payload
  simp [h1, h2, hct, h3, h4]

/-- Same request as the counterexample but with the body absent. -/
def c8reqNoBody : Request :=
  { url := "https://request.mellow.tel/api", method := "POST"
    headers := [("content-type", "text/plain")]
    response := none, body := none, ts := 8 }

theorem C8_absent_body_skipped_witness :
    save_post_payload c8reqNoBody "https://news.test/" 0 =
      (0, none, [LogEvent.warnPostNoBody]) := by
  exact C8_absent_body_skipped c8reqNoBody "https://news.test/" 0 "text/plain"
    (by decide) (by decide) (by decide) (by decide) (by decide)

/-- **C9 counterexample**: the claim says the shutdown call's wait for the
queue to drain is bounded by a timeout.  In `FileWriterQueue.shutdown` the
drain is `self.write_queue.join()`, which takes no timeout at all — the
`timeout` parameter is used only for the worker-thread join. -/
theorem C9_drain_unbounded_counterexample :
    (shutdownRun 30 true).1.filter isDrainStep =
      [ShutdownStep.drainQueue none] := by
  decide

/-- **C9 amended**: `shutdown` blocks until the queue is fully drained with
no time bound on that wait, then enqueues the sentinel, then joins the worker
thread bounded by the timeout parameter; a worker thread that does not
terminate in time is only logged — the call returns normally either way. -/
theorem C9_shutdown_sequence (q : ℚ) (b : Bool) :
    (shutdownRun q b).2 = false ∧
    (shutdownRun q b).1.take 4 =
      [ShutdownStep.setShutdownEvent, ShutdownStep.drainQueue none,
       ShutdownStep.putSentinel, ShutdownStep.joinWorker (some q)] ∧
    ((ShutdownStep.logWorkerAlive ∈ (shutdownRun q b).1) ↔ b = false) := by
  cases b <;> simp [shutdownRun]

/-! ## Support lemmas: JSON lines contain no raw newline -/

/-- Number of newline characters in a string. -/
def newlineCount (s : String) : Nat :=
  s.data.count '\n'

/-- No raw newline occurs in `s`. -/
abbrev newlineFree (s : String) : Prop :=
  '\n' ∉ s.data

lemma newlineFree_append {s t : String} (hs : newlineFree s)
    (ht : newlineFree t) : newlineFree (s ++ t) := by
  show '\n' ∉ (s ++ t).data
  rw [String.data_append]
  intro h
  rcases List.mem_append.mp h with h | h
  · exact hs h
  · exact ht h

lemma digitChar_ne_newline : ∀ k < 10, Char.ofNat ('0'.toNat + k) ≠ '\n' := by
  decide

lemma newlineFree_natRepr (n : Nat) : '\n' ∉ natRepr n := by
  induction n using natRepr.induct with
  | case1 n h =>
    rw [natRepr, dif_pos h]
    intro hm
    rcases List.mem_singleton.mp hm with hm
    exact digitChar_ne_newline n h hm.symm
  | case2 n h ih =>
    rw [natRepr, dif_neg h]
    intro hm
    rcases List.mem_append.mp hm with hm | hm
    · exact ih hm
    · rcases List.mem_singleton.mp hm with hm
      exact digitChar_ne_newline (n % 10) (Nat.mod_lt _ (by omega)) hm.symm

lemma newlineFree_intRepr (i : Int) : newlineFree (intRepr i) := by
  show '\n' ∉ (intRepr i).data
  unfold intRepr
  by_cases h : i < 0
  · rw [if_pos h]
    intro hm
    rcases List.mem_cons.mp hm with hm | hm
    · exact absurd hm (by decide)
    · exact newlineFree_natRepr i.natAbs hm
  · rw [if_neg h]
    exact newlineFree_natRepr i.natAbs

lemma hexDigit_ne_newline : ∀ n < 16, hexDigit n ≠ '\n' := by
  decide

lemma hex4_no_newline (n : Nat) : '\n' ∉ hex4 n := by
  unfold hex4
  intro h
  simp only [List.mem_cons, List.not_mem_nil, or_false] at h
  rcases h with h | h | h | h | h | h
  · exact absurd h (by decide)
  · exact absurd h (by decide)
  · exact hexDigit_ne_newline _ (Nat.mod_lt _ (by omega)) h.symm
  · exact hexDigit_ne_newline _ (Nat.mod_lt _ (by omega)) h.symm
  · exact hexDigit_ne_newline _ (Nat.mod_lt _ (by omega)) h.symm
  · exact hexDigit_ne_newline _ (Nat.mod_lt _ (by omega)) h.symm

lemma escChar_no_newline (c : Char) : '\n' ∉ escChar c := by
  unfold escChar
  split_ifs with h1 h2 h3 h4 h5 h6 h7 h8 h9
  · intro h; rcases List.mem_cons.mp h with h | h
    · exact absurd h (by decide)
    · exact absurd (List.mem_singleton.mp h) (by decide)
  · intro h; rcases List.mem_cons.mp h with h | h
    · exact absurd h (by decide)
    · exact absurd (List.mem_singleton.mp h) (by decide)
  · intro h; rcases List.mem_cons.mp h with h | h
    · exact absurd h (by decide)
    · exact absurd (List.mem_singleton.mp h) (by decide)
  · intro h; rcases List.mem_cons.mp h with h | h
    · exact absurd h (by decide)
    · exact absurd (List.mem_singleton.mp h) (by decide)
  · intro h; rcases List.mem_cons.mp h with h | h
    · exact absurd h (by decide)
    · exact absurd (List.mem_singleton.mp h) (by decide)
  · intro h; rcases List.mem_cons.mp h with h | h
    · exact absurd h (by decide)
    · exact absurd (List.mem_singleton.mp h) (by decide)
  · intro h; rcases List.mem_cons.mp h with h | h
    · exact absurd h (by decide)
    · exact absurd (List.mem_singleton.mp h) (by decide)
  · exact hex4_no_newline _
  · intro h
    rcases List.mem_append.mp h with h | h
    · exact hex4_no_newline _ h
    · exact hex4_no_newline _ h
  · intro h
    rcases List.mem_singleton.mp h with h
    have hc : c.toNat = 10 := h ▸ (by decide : ('\n' : Char).toNat = 10)
    simp only [Bool.or_eq_true, decide_eq_true_eq, not_or] at h8
    omega

lemma newlineFree_jsonStr (s : String) : newlineFree (jsonStr s) := by
  show '\n' ∉ (jsonStr s).data
  unfold jsonStr
  intro h
  rcases List.mem_cons.mp h with h | h
  · exact absurd h (by decide)
  · rcases List.mem_append.mp h with h | h
    · rcases List.mem_flatMap.mp h with ⟨c, _, hc⟩
      exact escChar_no_newline c hc
    · exact absurd (List.mem_singleton.mp h) (by decide)

lemma newlineFree_of_data (s : String) (h : ∀ c ∈ s.data, c ≠ '\n') :
    newlineFree s := fun hm => h _ hm rfl

lemma newlineFree_joinSep (sep : String) (l : List String)
    (hsep : newlineFree sep) (h : ∀ x ∈ l, newlineFree x) :
    newlineFree (joinSep sep l) := by
  induction l with
  | nil => exact (by decide : newlineFree "")
  | cons x xs ih =>
    cases xs with
    | nil => exact h x (by simp)
    | cons y ys =>
      have hx : newlineFree x := h x (by simp)
      have hrest : newlineFree (joinSep sep (y :: ys)) :=
        ih (fun z hz => h z (List.mem_cons_of_mem x hz))
      exact newlineFree_append (newlineFree_append hx hsep) hrest

lemma newlineFree_headerFields (m : List (String × String)) :
    newlineFree (joinSep ", "
      (m.map (fun p => jsonStr p.1 ++ ": " ++ jsonStr p.2))) := by
  refine newlineFree_joinSep _ _ (by decide) ?_
  intro x hx
  rcases List.mem_map.mp hx with ⟨p, _, hpe⟩
  subst hpe
  repeat' apply newlineFree_append
  all_goals first
    | exact newlineFree_jsonStr _
    | decide

lemma newlineFree_jsonDict (m : List (String × String)) :
    newlineFree (jsonDict m) := by
  unfold jsonDict
  exact newlineFree_append (newlineFree_append (by decide)
    (newlineFree_headerFields m)) (by decide)

lemma newlineFree_jsonResponse (r : Option ResponseData) :
    newlineFree (jsonResponse r) := by
  cases r with
  | none => decide
  | some r =>
    unfold jsonResponse
    repeat' apply newlineFree_append
    all_goals first
      | exact newlineFree_intRepr r.status_code
      | exact newlineFree_jsonStr _
      | exact newlineFree_headerFields r.headers
      | decide

lemma newlineFree_jsonDumpsFlushed (r : FlushedRecord) :
    newlineFree (jsonDumpsFlushed r) := by
  unfold jsonDumpsFlushed
  refine newlineFree_append (newlineFree_append (by decide) ?_) (by decide)
  refine newlineFree_joinSep _ _ (by decide) ?_
  intro x hx
  simp only [List.mem_cons, List.not_mem_nil, or_false] at hx
  rcases hx with h | h | h | h | h | h | h | h
  all_goals subst h
  all_goals repeat' apply newlineFree_append
  all_goals first
    | exact newlineFree_intRepr r.timestamp
    | exact newlineFree_headerFields r.request_headers
    | exact newlineFree_jsonResponse r.response
    | exact newlineFree_jsonStr _
    | decide

/-- Each serialized record contributes exactly one line: the newline count of
a flush content equals the number of buffered records. -/
lemma newlineCount_flushContent (reqs : List StoredRecord) (u dom : String) :
    newlineCount (concatAll (reqs.map
      (fun r => jsonDumpsFlushed (stampRecord r u dom) ++ "\n"))) =
      reqs.length := by
  induction reqs with
  | nil => rfl
  | cons r rest ih =>
    have hstep : concatAll (((r :: rest).map
        (fun r => jsonDumpsFlushed (stampRecord r u dom) ++ "\n"))) =
        (jsonDumpsFlushed (stampRecord r u dom) ++ "\n") ++
        concatAll (rest.map
          (fun r => jsonDumpsFlushed (stampRecord r u dom) ++ "\n")) := rfl
    have h0 : List.count '\n' (jsonDumpsFlushed (stampRecord r u dom)).data = 0 :=
      List.count_eq_zero_of_not_mem (newlineFree_jsonDumpsFlushed _)
    have h1 : List.count '\n' ("\n" : String).data = 1 := by decide
    unfold newlineCount at *
    rw [hstep, String.data_append, List.count_append, String.data_append,
      List.count_append, h0, h1, ih]
    simp only [List.length_cons]
    omega

lemma bucketLookup_filterOut_self (m : List (String × Bucket)) (u : String) :
    bucketLookup (m.filter (fun p => p.1 ≠ u)) u = none := by
  induction m with
  | nil => rfl
  | cons p t ih =>
    rcases p with ⟨k, bb⟩
    rw [List.filter_cons]
    by_cases hk : k = u
    · rw [if_neg (by simp [hk])]
      exact ih
    · rw [if_pos (by simp [hk]), bucketLookup_cons, if_neg hk]
      exact ih

lemma bucketLookup_filterOut_other (m : List (String × Bucket)) (u v : String)
    (h : v ≠ u) :
    bucketLookup (m.filter (fun p => p.1 ≠ u)) v = bucketLookup m v := by
  induction m with
  | nil => rfl
  | cons p t ih =>
    rcases p with ⟨k, bb⟩
    rw [List.filter_cons]
    by_cases hk : k = u
    · have hkv : ¬ (k = v) := fun hc => h (hc ▸ hk)
      rw [if_neg (by simp [hk]), bucketLookup_cons, if_neg hkv]
      exact ih
    · rw [if_pos (by simp [hk]), bucketLookup_cons, bucketLookup_cons]
      by_cases hv : k = v
      · rw [if_pos hv, if_pos hv]
      · rw [if_neg hv, if_neg hv]
        exact ih

/-- **C5**: flushing a non-empty bucket enqueues exactly one append-mode
write task whose content is the concatenation, in original attribution
order, of one JSON line per buffered request with `iframe_src` and
`iframe_domain` stamped in (exactly one newline per record, so one line per
request), removes exactly that bucket's key from the aggregation map, and
leaves every other key's bucket unchanged. -/
theorem C5_flush_single_task (f : String) (m : List (String × Bucket))
    (u : String) (b : Bucket)
    (hb : bucketLookup m u = some b) (hne : b.requests ≠ []) :
    (write_iframe_requests f m u).2 =
      [{ filepath := f,
         content := concatAll (b.requests.map
           (fun r => jsonDumpsFlushed (stampRecord r u b.domain) ++ "\n")),
         mode := 'a' }] ∧
    newlineCount (concatAll (b.requests.map
      (fun r => jsonDumpsFlushed (stampRecord r u b.domain) ++ "\n"))) =
      b.requests.length ∧
    bucketLookup (write_iframe_requests f m u).1 u = none ∧
    ∀ v, v ≠ u →
      bucketLookup (write_iframe_requests f m u).1 v = bucketLookup m v := by
  have hlen : 0 < b.requests.length := List.length_pos.mpr hne
  unfold write_iframe_requests
  rw [hb]
  refine ⟨by simp [hlen], newlineCount_flushContent b.requests u b.domain,
    ?_, ?_⟩
  · simpa using bucketLookup_filterOut_self m u
  · intro v hv
    simpa using bucketLookup_filterOut_other m u v hv

/-- Flush fixture: one buffered record. -/
def c5rec : StoredRecord :=
  { timestamp := 5, url := "https://request.mellow.tel/api", method := "GET"
    request_headers := [("Referer", "https://a.example.com/")]
    response := none, visited_site := "https://news.test/" }

/-- Flush fixture: the bucket holding `c5rec`. -/
def c5bucket : Bucket :=
  { domain := "a.example.com", requests := [c5rec] }

/-- Flush fixture: aggregation map with a single bucket. -/
def c5m : List (String × Bucket) :=
  [("https://a.example.com/iframe", c5bucket)]

theorem C5_flush_single_task_witness :
    (write_iframe_requests "out/network_logs.jsonl" c5m
      "https://a.example.com/iframe").2 =
      [{ filepath := "out/network_logs.jsonl",
         content := concatAll (c5bucket.requests.map
           (fun r => jsonDumpsFlushed (stampRecord r
             "https://a.example.com/iframe" c5bucket.domain) ++ "\n")),
         mode := 'a' }] ∧
    newlineCount (concatAll (c5bucket.requests.map
      (fun r => jsonDumpsFlushed (stampRecord r
        "https://a.example.com/iframe" c5bucket.domain) ++ "\n"))) =
      c5bucket.requests.length ∧
    bucketLookup (write_iframe_requests "out/network_logs.jsonl" c5m
      "https://a.example.com/iframe").1 "https://a.example.com/iframe" = none ∧
    bucketLookup (write_iframe_requests "out/network_logs.jsonl" c5m
      "https://a.example.com/iframe").1 "https://other.example/" =
      bucketLookup c5m "https://other.example/" := by
  have h := C5_flush_single_task "out/network_logs.jsonl" c5m
    "https://a.example.com/iframe" c5bucket (by decide) (by decide)
  exact ⟨h.1, h.2.1, h.2.2.1, h.2.2.2 "https://other.example/" (by decide)⟩

/-! ## Support lemmas: the heap model -/

lemma find?_natkey_cons {β : Type} (k : Nat) (x : β) (t : List (Nat × β))
    (i : Nat) :
    ((k, x) :: t).find? (fun p => p.1 = i) =
      if k = i then some (k, x) else t.find? (fun p => p.1 = i) := by
  by_cases h : k = i <;> simp [List.find?, h]

lemma find?_map_update {β : Type} (store : List (Nat × β)) (ids : List Nat)
    (g : β → β) (i : Nat) (hi : i ∉ ids) :
    (store.map (fun p => if p.1 ∈ ids then (p.1, g p.2) else p)).find?
      (fun p => p.1 = i) = store.find? (fun p => p.1 = i) := by
  induction store with
  | nil => rfl
  | cons p t ih =>
    rcases p with ⟨k, x⟩
    rw [List.map_cons]
    by_cases hk : k ∈ ids
    · have hki : ¬ (k = i) := fun hc => hi (hc ▸ hk)
      simp only [hk, if_true]
      rw [find?_natkey_cons, find?_natkey_cons, if_neg hki, if_neg hki]
      exact ih
    · simp only [hk, if_false]
      rw [find?_natkey_cons, find?_natkey_cons]
      by_cases hki : k = i
      · rw [if_pos hki, if_pos hki]
      · rw [if_neg hki, if_neg hki]
        exact ih

/-- Stamping does not touch the buckets, only the store. -/
lemma stampHeap_buckets (h : HeapState) (u : String) :
    (stampHeap h u).buckets = h.buckets := by
  unfold stampHeap
  cases h.buckets.find? (fun p => p.1 = u) <;> rfl

/-- Stamping bucket `u` leaves every object outside `u`'s id list intact. -/
lemma storeGet_stamp_frame (h : HeapState) (u : String) (i : Nat)
    (hi : ∀ bu, h.buckets.find? (fun p => p.1 = u) = some bu → i ∉ bu.2.2) :
    storeGet (stampHeap h u) i = storeGet h i := by
  unfold stampHeap
  cases hf : h.buckets.find? (fun p => p.1 = u) with
  | none => rfl
  | some bu =>
    have hib : i ∉ bu.2.2 := hi bu hf
    show storeGet { h with store := stampStore h.store bu.2.2 u bu.2.1 } i =
      storeGet h i
    unfold storeGet stampStore
    exact congrArg (Option.map _)
      (find?_map_update h.store bu.2.2
        (fun x => { x with iframe_src := some u, iframe_domain := some bu.2.1 })
        i hib)

/-- The pairwise no-shared-object invariant of the heap buckets. -/
def BucketsDisjoint (bs : List (String × String × List Nat)) : Prop :=
  bs.Pairwise (fun b1 b2 => ∀ i, i ∈ b1.2.2 → i ∉ b2.2.2)

lemma bucketsDisjoint_symm :
    Symmetric (fun b1 b2 : String × String × List Nat =>
      ∀ i, i ∈ b1.2.2 → i ∉ b2.2.2) := by
  intro a b hab i hib hia
  exact hab i hia hib

lemma bucketsAppendId_bounded (bs : List (String × String × List Nat))
    (u dom : String) (n : Nat)
    (hb : ∀ b ∈ bs, ∀ i ∈ b.2.2, i < n) :
    ∀ b ∈ bucketsAppendId bs u dom n, ∀ i ∈ b.2.2, i < n + 1 := by
  intro b hbmem i hi
  unfold bucketsAppendId at hbmem
  split at hbmem
  · rcases List.mem_map.mp hbmem with ⟨b0, hb0, hbe⟩
    by_cases hk : b0.1 = u
    · rw [if_pos hk] at hbe
      subst hbe
      simp only at hi
      rcases List.mem_append.mp hi with h | h
      · exact Nat.lt_succ_of_lt (hb b0 hb0 i h)
      · rw [List.mem_singleton.mp h]
        omega
    · rw [if_neg hk] at hbe
      subst hbe
      exact Nat.lt_succ_of_lt (hb b0 hb0 i hi)
  · rcases List.mem_append.mp hbmem with h | h
    · exact Nat.lt_succ_of_lt (hb b h i hi)
    · rw [List.mem_singleton.mp h] at hi
      simp only at hi
      rw [List.mem_singleton.mp hi]
      omega

lemma bucketsAppendId_keys (bs : List (String × String × List Nat))
    (u dom : String) (n : Nat)
    (hnd : (bs.map Prod.fst).Nodup) :
    ((bucketsAppendId bs u dom n).map Prod.fst).Nodup := by
  unfold bucketsAppendId
  split
  · have : (bs.map (fun p => if p.1 = u then (u, p.2.1, p.2.2 ++ [n]) else p)).map
        Prod.fst = bs.map Prod.fst := by
      rw [List.map_map]
      apply List.map_congr_left
      intro b _
      by_cases hk : b.1 = u
      · simp [Function.comp, hk]
      · simp [Function.comp, hk]
    rw [this]
    exact hnd
  · rename_i hany
    rw [List.map_append]
    rw [List.nodup_append]
    refine ⟨hnd, by simp, ?_⟩
    intro a ha
    simp only [List.map_cons, List.map_nil, List.mem_singleton]
    intro hau
    subst hau
    rcases List.mem_map.mp ha with ⟨b, hb, hbe⟩
    exact hany (List.any_eq_true.mpr ⟨b, hb, by simp [hbe]⟩)

lemma pairwise_map_addToBucket (bs : List (String × String × List Nat))
    (u : String) (n : Nat)
    (hb : ∀ b ∈ bs, ∀ i ∈ b.2.2, i < n)
    (hnd : (bs.map Prod.fst).Nodup)
    (hp : BucketsDisjoint bs) :
    BucketsDisjoint (bs.map
      (fun p => if p.1 = u then (u, p.2.1, p.2.2 ++ [n]) else p)) := by
  induction bs with
  | nil => exact List.Pairwise.nil
  | cons b t ih =>
    rcases List.pairwise_cons.mp hp with ⟨hrel, hpt⟩
    have hbt : ∀ x ∈ t, ∀ i ∈ x.2.2, i < n := fun x hx => hb x (by simp [hx])
    have hbb : ∀ i ∈ b.2.2, i < n := hb b (by simp)
    have hndt : (t.map Prod.fst).Nodup ∧ b.1 ∉ t.map Prod.fst := by
      rw [List.map_cons] at hnd
      exact ⟨(List.nodup_cons.mp hnd).2, (List.nodup_cons.mp hnd).1⟩
    rw [List.map_cons]
    refine List.pairwise_cons.mpr ⟨?_, ih hbt hndt.1 hpt⟩
    intro x hx
    rcases List.mem_map.mp hx with ⟨b0, hb0, hbe⟩
    by_cases hkb : b.1 = u
    · have hk0 : ¬ (b0.1 = u) := by
        intro hc
        have : b.1 ∈ t.map Prod.fst := by
          rw [hkb, ← hc]
          exact List.mem_map_of_mem Prod.fst hb0
        exact hndt.2 this
      rw [if_neg hk0] at hbe
      subst hbe
      rw [if_pos hkb]
      intro i hi
      simp only at hi
      rcases List.mem_append.mp hi with h | h
      · exact hrel b0 hb0 i h
      · rw [List.mem_singleton.mp h]
        intro hmem
        exact absurd (hbt b0 hb0 n hmem) (by omega)
    · rw [if_neg hkb]
      by_cases hk0 : b0.1 = u
      · rw [if_pos hk0] at hbe
        subst hbe
        intro i hi
        simp only [List.mem_append, List.mem_singleton]
        rintro (h | h)
        · exact hrel b0 hb0 i hi h
        · subst h
          exact absurd (hbb i hi) (by omega)
      · rw [if_neg hk0] at hbe
        subst hbe
        exact hrel b0 hb0

lemma bucketsAppendId_disjoint (bs : List (String × String × List Nat))
    (u dom : String) (n : Nat)
    (hb : ∀ b ∈ bs, ∀ i ∈ b.2.2, i < n)
    (hnd : (bs.map Prod.fst).Nodup)
    (hp : BucketsDisjoint bs) :
    BucketsDisjoint (bucketsAppendId bs u dom n) := by
  unfold bucketsAppendId
  split
  · exact pairwise_map_addToBucket bs u n hb hnd hp
  · unfold BucketsDisjoint
    rw [List.pairwise_append]
    refine ⟨hp, List.pairwise_singleton .., ?_⟩
    intro a ha x hx
    rw [List.mem_singleton.mp hx]
    intro i hi
    simp only [List.mem_singleton]
    intro hin
    subst hin
    exact absurd (hb a ha i hi) (by omega)

/-- Broadcasting preserves heap well-formedness: each appended copy is a
fresh object. -/
lemma broadcastHeap_wf (visible : List String) (h : HeapState)
    (r : StoredRecord) (hwf : HeapWF h) :
    HeapWF (broadcastHeap visible h r) := by
  induction visible generalizing h with
  | nil => exact hwf
  | cons u rest ih =>
    have hstep : broadcastHeap (u :: rest) h r =
        broadcastHeap rest
          { (allocRecord h r).1 with
            buckets := bucketsAppendId (allocRecord h r).1.buckets u
              (extract_domain u) (allocRecord h r).2 } r := rfl
    rw [hstep]
    apply ih
    rcases hwf with ⟨hb, hnd, hp⟩
    refine ⟨?_, ?_, ?_⟩
    · exact bucketsAppendId_bounded h.buckets u (extract_domain u) h.nextId hb
    · exact bucketsAppendId_keys h.buckets u (extract_domain u) h.nextId hnd
    · exact bucketsAppendId_disjoint h.buckets u (extract_domain u) h.nextId
        hb hnd hp

/-- **C10**: the no-`Referer` broadcast stores an independent copy of the
record in each visible iframe's bucket, so stamping `iframe_src` and
`iframe_domain` into one bucket's objects at flush time leaves the objects
buffered for every other iframe unchanged. -/
theorem C10_broadcast_independent_copies (h : HeapState)
    (visible : List String) (r : StoredRecord) (u v : String)
    (hwf : HeapWF h) (hvu : v ≠ u) :
    bucketObjs (stampHeap (broadcastHeap visible h r) u) v =
      bucketObjs (broadcastHeap visible h r) v := by
  have hwf1 : HeapWF (broadcastHeap visible h r) :=
    broadcastHeap_wf visible h r hwf
  unfold bucketObjs
  rw [show bucketIds (stampHeap (broadcastHeap visible h r) u) v =
      bucketIds (broadcastHeap visible h r) v by
    unfold bucketIds
    rw [stampHeap_buckets]]
  apply List.map_congr_left
  intro i hi
  apply storeGet_stamp_frame
  intro bu hfu
  have hbu := List.mem_of_find?_eq_some hfu
  have hbuk : bu.1 = u := by simpa using List.find?_some hfu
  unfold bucketIds at hi
  cases hfv : (broadcastHeap visible h r).buckets.find? (fun p => p.1 = v) with
  | none => rw [hfv] at hi; simp at hi
  | some bv =>
    rw [hfv] at hi
    have hbv := List.mem_of_find?_eq_some hfv
    have hbvk : bv.1 = v := by simpa using List.find?_some hfv
    have hne : bv ≠ bu := by
      intro hc
      exact hvu (by rw [← hbvk, hc, hbuk])
    have hdisj := hwf1.2.2.forall bucketsDisjoint_symm hbv hbu hne
    exact hdisj i hi

/-- Heap fixture: empty heap at the start of a visit. -/
def c10h0 : HeapState :=
  { store := [], nextId := 0, buckets := [] }

/-- Heap fixture: the two visible iframes of scenario C. -/
def c10visible : List String :=
  ["https://a.example.com/iframe", "https://b.example.com/iframe"]

/-- Heap fixture: the broadcast record. -/
def c10rec : StoredRecord :=
  { timestamp := 9, url := "https://request.mellow.tel/api", method := "GET"
    request_headers := [("accept", "*/*")]
    response := none, visited_site := "https://news.test/" }

theorem C10_broadcast_independent_copies_witness :
    bucketObjs (stampHeap (broadcastHeap c10visible c10h0 c10rec)
        "https://a.example.com/iframe") "https://b.example.com/iframe" =
      bucketObjs (broadcastHeap c10visible c10h0 c10rec)
        "https://b.example.com/iframe" ∧
    bucketObjs (broadcastHeap c10visible c10h0 c10rec)
        "https://b.example.com/iframe" =
      [some { data := c10rec, iframe_src := none, iframe_domain := none }] := by
  refine ⟨?_, by decide⟩
  exact C10_broadcast_independent_copies c10h0 c10visible c10rec
    "https://a.example.com/iframe" "https://b.example.com/iframe"
    ⟨by intro b hb; simp [c10h0] at hb, by simp [c10h0], List.Pairwise.nil⟩
    (by decide)

end Mellowtel
